import Mathlib

/-!
Verification development for the xrplsale Rust SDK (sources: src/lib.rs,
src/client.rs, src/services/projects.rs).

The request pipeline, pagination stream, configuration builder and the
environment parsing are shallowly embedded as pure Lean functions.  Network
I/O is abstracted by oracles: the retry loop takes a function
`attempts : Nat -> AttemptOutcome` giving the transport outcome of each send
attempt, and the pagination stream takes `fetch : Nat -> Except Error _`
giving the result of the listing call for each page number.

External collaborators are modelled by their documented contracts, with the
restrictions stated at each definition:
* the `url` crate (WHATWG URL parsing and relative-reference resolution) is
  modelled on the URL fragment exercised by the SDK;
* serde_json decoding is kept abstract (a parameter `dec : String -> Except
  String T`) except for two small concrete decoders that model serde's
  documented treatment of the JSON document null;
* reqwest: a completed HTTP exchange is a plain record of status, headers,
  body text and URL.

The files error.rs and models.rs of the repository are not among the provided
sources; the shapes of `Error` and `PaginatedResponse` below are forced by
their uses in client.rs / lib.rs / projects.rs and follow the spec (section 3
and section 7) for what the uses leave open.
-/

namespace XrplSale

/-- Error taxonomy of the SDK (error.rs is not among the provided sources;
the variants and their payloads are reconstructed from every construction
site in client.rs and lib.rs, and match the spec's section 7, whose
`Transport` kind is the `HttpClient` variant).  The numeric type of the
rate-limit hint is taken as u64 seconds per the spec. -/
inductive Error where
  | HttpClient (msg : String)
  | Configuration (msg : String)
  | Parse (msg : String)
  | BadRequest (body : String)
  | Unauthorized (body : String)
  | NotFound (body : String)
  | RateLimit (message : String) (retry_after : Option Nat)
  | Api (status : Nat) (message : String) (url : String)
  | InvalidEnvironment (s : String)
  deriving DecidableEq

/-- lib.rs: `pub enum Environment { Production, Testnet }`. -/
inductive Environment where
  | Production
  | Testnet
  deriving DecidableEq

/-- lib.rs `Environment::base_url`. -/
def Environment.base_url : Environment → String
  | .Production => "https://api.xrpl.sale/v1"
  | .Testnet => "https://api-testnet.xrpl.sale/v1"

/-- lib.rs `impl Display for Environment`. -/
def Environment.display : Environment → String
  | .Production => "production"
  | .Testnet => "testnet"

/-- Model of Rust `str::to_lowercase`.  Rust lowercases per Unicode while
`String.toLower` maps ASCII A-Z only; the two agree on every code point whose
lowercase form occurs in the four keywords matched by `Environment::from_str`
(the only non-ASCII code points with ASCII lowercase forms are U+212A, which
lowers to "k", and U+0130, which lowers to a two-character sequence; neither
"k" nor that sequence occurs in the keywords), so the modelled function
accepts exactly the strings the Rust code accepts. -/
def rust_to_lowercase (s : String) : String := ⟨s.data.map Char.toLower⟩

/-- lib.rs `impl FromStr for Environment` (the match on `s.to_lowercase()`;
if-chains mirror the disjunctive match arms). -/
def Environment.from_str (s : String) : Except Error Environment :=
  let l := rust_to_lowercase s
  if l = "production" ∨ l = "prod" then .ok .Production
  else if l = "testnet" ∨ l = "test" then .ok .Testnet
  else .error (.InvalidEnvironment s)

/-- client.rs `ClientConfig`.  Durations are modelled in nanoseconds. -/
structure ClientConfig where
  api_key : String
  environment : Environment
  base_url : Option String
  timeout : Nat
  max_retries : Nat
  retry_delay : Nat
  webhook_secret : Option String
  debug : Bool
  deriving DecidableEq

/-- client.rs `impl Default for ClientConfig` (30 s timeout, 3 retries,
1 s base delay, production, debug off). -/
def ClientConfig.default_config : ClientConfig :=
  { api_key := ""
    environment := .Production
    base_url := none
    timeout := 30000000000
    max_retries := 3
    retry_delay := 1000000000
    webhook_secret := none
    debug := false }

/-- client.rs `Client`: only the configuration matters to the verified
claims.  The `reqwest::Client` handle and the `auth_token` RwLock cell are
runtime I/O state that none of the claims mention. -/
structure Client where
  config : ClientConfig
  deriving DecidableEq

/-- client.rs `Client::with_config`.  Building the reqwest client performs no
network I/O; its builder cannot fail for the fixed headers installed here, so
the model always succeeds. -/
def Client.with_config (config : ClientConfig) : Except Error Client :=
  .ok { config := config }

/-- client.rs `ClientBuilder::build`: the builder only accumulates fields
into a `ClientConfig`, so the model takes the accumulated configuration
directly.  Rust `String::is_empty` holds exactly for the empty string. -/
def ClientBuilder.build (config : ClientConfig) : Except Error Client :=
  if config.api_key = "" then .error (.Configuration "API key is required")
  else Client.with_config config

/-- client.rs `Client::base_url`:
`config.base_url.as_deref().unwrap_or_else(|| environment.base_url())`. -/
def Client.base_url (c : Client) : String :=
  c.config.base_url.getD c.config.environment.base_url

/-! ## Model of the `url` crate (restricted)

Only the fragment of WHATWG URL processing exercised by `Client::build_url`
is modelled: an absolute URL of the shape scheme://host/seg/... (no userinfo,
port separation, query, fragment, percent-encoding or dot-segment
normalization; the inputs the theorems quantify over are restricted
accordingly where it matters).  Relative-reference resolution (`Url::join`)
follows the WHATWG algorithm for these URLs: an empty reference returns the
base, a reference starting with "/" replaces the whole path, and any other
reference replaces the final path segment of the base. -/

/-- Split a character list at every slash (`"a/b" ↦ [a, b]`, keeping empty
components, never returning the empty list). -/
def split_on_slash : List Char → List (List Char)
  | [] => [[]]
  | c :: rest =>
    let r := split_on_slash rest
    if c = '/' then [] :: r
    else
      match r with
      | [] => [[c]]
      | h :: t => (c :: h) :: t

/-- Split a character list at the first occurrence of the scheme separator
"://", returning the parts before and after it. -/
def split_scheme : List Char → Option (List Char × List Char)
  | ':' :: '/' :: '/' :: rest => some ([], rest)
  | c :: rest => (split_scheme rest).map (fun p => (c :: p.1, p.2))
  | [] => none

/-- A parsed absolute URL in the restricted model. -/
structure Url where
  scheme : String
  host : String
  segments : List String
  deriving DecidableEq

/-- Model of `url::Url::parse` on the restricted fragment: requires a
nonempty scheme, the "://" separator and a nonempty host; the remainder is
the path split at slashes.  Anything else is a parse error (as it is for the
real crate, up to the error message). -/
def Url.parse (s : String) : Except String Url :=
  match split_scheme s.data with
  | none => .error "relative URL without a base"
  | some (sch, rest) =>
    if sch = [] then .error "relative URL without a base"
    else
      match split_on_slash rest with
      | [] => .error "empty host"
      | host :: segs =>
        if host = [] then .error "empty host"
        else .ok { scheme := ⟨sch⟩, host := ⟨host⟩, segments := segs.map (fun l => (⟨l⟩ : String)) }

/-- Model of Rust `str::trim_start_matches('/')`: removes every leading
slash (the Rust method strips the matching prefix repeatedly). -/
def trim_start_slashes (s : String) : String :=
  ⟨s.data.dropWhile (fun c => c = '/')⟩

/-- Model of `url::Url::join` for a base of the restricted shape and a
relative reference that is not itself an absolute URL and contains no query,
fragment or dot segments: an empty reference yields the base, a reference
beginning with "/" replaces the whole path, and otherwise the reference
replaces the final segment of the base's path (the WHATWG merge-path step).
Join errors cannot arise on this fragment, so the result is total. -/
def Url.join (b : Url) (rel : String) : Url :=
  match rel.data with
  | [] => b
  | '/' :: rest => { b with segments := (split_on_slash rest).map (fun l => (⟨l⟩ : String)) }
  | _ => { b with segments := b.segments.dropLast ++ (split_on_slash rel.data).map (fun l => (⟨l⟩ : String)) }

/-- Rendering of a URL of the restricted model back to a string. -/
def Url.render (u : Url) : String :=
  u.scheme ++ "://" ++ u.host ++ (u.segments.map (fun s => "/" ++ s)).foldl (fun a b => a ++ b) ""

/-- client.rs `Client::build_url`: parse the effective base URL (Configuration
error on failure) and join the path with its leading slashes stripped. -/
def Client.build_url (c : Client) (path : String) : Except Error Url :=
  match Url.parse c.base_url with
  | .error e => .error (.Configuration ("Invalid base URL: " ++ e))
  | .ok base => .ok (base.join (trim_start_slashes path))

/-- The URL resolution in the words of the spec (section 4.1): "concatenate
the configured base ... with `path`, stripping a single leading slash from
`path` before joining so that double slashes never occur" - the base, a
single separating slash, and the path minus one leading slash. -/
def spec_concat_url (base path : String) : String :=
  base ++ "/" ++ ⟨match path.data with | '/' :: rest => rest | l => l⟩

/-! ## Response handling and the retry loop (client.rs) -/

/-- A completed HTTP exchange as observed through reqwest: status code, the
response headers, the body read as text, and the request URL.  (Reading the
body can itself fail at the transport level in reqwest; on the error path the
code replaces such a failure by the empty string, and on the success path a
body-read failure is another transport error - reads are modelled as always
succeeding, which is the only case the claims speak about.) -/
structure HttpResponse where
  status : Nat
  headers : List (String × String)
  body : String
  url : String
  deriving DecidableEq

/-- reqwest `StatusCode::is_success`: 2xx, that is 200 ≤ code ≤ 299. -/
def status_is_success (n : Nat) : Bool := decide (200 ≤ n ∧ n < 300)

/-- reqwest `HeaderMap::get`: header-name lookup is case-insensitive (header
names are matched lowercased); the first matching header's value is
returned.  `HeaderValue::to_str` succeeds for the visible-ASCII values
modelled here and is elided. -/
def header_get (headers : List (String × String)) (name : String) : Option String :=
  (headers.find? (fun p => rust_to_lowercase p.1 = name)).map (fun p => p.2)

/-- Numeric value of a decimal digit list (most significant first). -/
def digits_val (l : List Char) : Nat :=
  l.foldl (fun a c => a * 10 + (c.toNat - '0'.toNat)) 0

/-- Model of Rust `str::parse::<u64>` as used for the Retry-After header: an
optional leading '+', then one or more ASCII digits, value below 2^64
(overflow is an error); anything else is `None` (the code turns parse errors
into an absent hint via `.ok()`). -/
def rust_parse_u64 (s : String) : Option Nat :=
  let l := if s.data.head? = some '+' then s.data.tail else s.data
  if l ≠ [] ∧ l.all Char.isDigit ∧ digits_val l < 2 ^ 64 then some (digits_val l) else none

/-- client.rs `Client::handle_response`, parameterized by the serde_json
decoder `dec` for the expected type `T` (`serde_json::from_str::<T>`).  A 2xx
status decodes the body - the text "null" when the body is empty - mapping
decode failures to `Parse`; a non-2xx status maps through the status match
(written as if-chains, which is what a Rust match on integer literals is).
The debug logging on the decode-failure path does not affect the value. -/
def handle_response {T : Type} (dec : String → Except String T) (r : HttpResponse) :
    Except Error T :=
  if status_is_success r.status then
    match dec (if r.body = "" then "null" else r.body) with
    | .ok v => .ok v
    | .error e => .error (.Parse e)
  else if r.status = 400 then .error (.BadRequest r.body)
  else if r.status = 401 then .error (.Unauthorized r.body)
  else if r.status = 404 then .error (.NotFound r.body)
  else if r.status = 429 then
    .error (.RateLimit r.body ((header_get r.headers "retry-after").bind rust_parse_u64))
  else .error (.Api r.status r.body r.url)

/-- Outcome of one send attempt: a transport-level failure (connection error,
timeout - reqwest's `send` returning `Err`) with its display message, or a
completed exchange carrying an HTTP status. -/
inductive AttemptOutcome where
  | transportErr (msg : String)
  | completed (r : HttpResponse)
  deriving DecidableEq

/-- Observable trace of one `execute_request` call: the returned value, the
number of send attempts made, and the list of backoff delays slept between
consecutive attempts (in the time unit of `retry_delay`, nanoseconds). -/
structure ExecTrace (T : Type) where
  result : Except Error T
  sends : Nat
  delays : List Nat

/-- The backoff multiplier `2_u32.pow(attempt as u32)` of client.rs line 320:
u32 arithmetic, so the usize attempt index is truncated to 32 bits and the
power wraps modulo 2^32 (release-profile overflow semantics; a debug build
would abort instead once the power overflows, which only matters from attempt
index 32 on). -/
def pow2u32 (attempt : Nat) : Nat := 2 ^ (attempt % 2 ^ 32) % 2 ^ 32

/-- The retry loop of client.rs `Client::execute_request` (lines 296-331),
iterating over attempt indices: `i` is the current attempt index, `remaining`
the number of indices left in `0..=max_retries`, `last_err` the recorded
`last_error`.  A completed attempt returns `handle_response` immediately; a
transport failure on the last allowed attempt falls out of the loop and
returns the recorded error (`unwrap_or_else` supplies "Unknown error" only on
the unreachable zero-iteration path); otherwise the loop sleeps
`retry_delay * 2^attempt` (u32-wrapped power) and retries.  The
`try_clone().ok_or(...)` guard cannot fail for the byte-buffer request bodies
this client builds and is elided; the authentication-header selection
precedes the loop and does not influence it. -/
def exec_go {T : Type} (cfg : ClientConfig) (dec : String → Except String T)
    (attempts : Nat → AttemptOutcome) : Nat → Nat → Option Error → ExecTrace T
  | _, 0, last_err =>
    { result := .error (last_err.getD (.HttpClient "Unknown error")), sends := 0, delays := [] }
  | i, remaining + 1, _ =>
    match attempts i with
    | .completed r => { result := handle_response dec r, sends := 1, delays := [] }
    | .transportErr m =>
      if remaining = 0 then
        { result := .error (.HttpClient m), sends := 1, delays := [] }
      else
        let t := exec_go cfg dec attempts (i + 1) remaining (some (.HttpClient m))
        { result := t.result, sends := t.sends + 1,
          delays := cfg.retry_delay * pow2u32 i :: t.delays }

/-- client.rs `Client::execute_request`: run the retry loop over attempt
indices `0..=max_retries` with no error recorded yet. -/
def execute_request {T : Type} (cfg : ClientConfig) (dec : String → Except String T)
    (attempts : Nat → AttemptOutcome) : ExecTrace T :=
  exec_go cfg dec attempts 0 (cfg.max_retries + 1) none

/-- The five verb helpers of client.rs. -/
inductive HttpMethod where
  | GET
  | POST
  | PUT
  | PATCH
  | DELETE
  deriving DecidableEq

/-- client.rs `Client::get/post/put/patch/delete`: every verb helper builds
its request and then delegates to `execute_request`; the response handling is
identical for all five, so the verb does not enter the result. -/
def verb_request {T : Type} (_ : HttpMethod) (cfg : ClientConfig)
    (dec : String → Except String T) (attempts : Nat → AttemptOutcome) : ExecTrace T :=
  execute_request cfg dec attempts

/-! ## Concrete serde_json decoders (documented serde behavior)

Two small decoders fix the behavior of `serde_json::from_str::<T>` on the
JSON document null, which is how an empty 2xx body is decoded:
`Option<u64>` deserializes null to `None`; a `Vec<_>` (the expected type of
e.g. `ProjectsService::tiers`) rejects null with an invalid-type error.
Both parsers cover only whitespace-free documents of their type, which
includes the only input the claims evaluate them on ("null"). -/

/-- serde_json decode into `Option<u64>`: null ↦ `None`, an integer literal
↦ `Some`, anything else an error. -/
def serde_option_nat_from_str (s : String) : Except String (Option Nat) :=
  if s = "null" then .ok none
  else
    match rust_parse_u64 s with
    | some n => .ok (some n)
    | none => .error ("invalid type: expected option of u64, got " ++ s)

/-- serde_json decode into `Vec<u64>`: a (whitespace-free) array of integer
literals ↦ the list; null is rejected with serde's invalid-type error, which
is the behavior the claims exercise. -/
def serde_list_nat_from_str (s : String) : Except String (List Nat) :=
  if s = "null" then .error "invalid type: null, expected a sequence at line 1 column 4"
  else if s = "[]" then .ok []
  else
    match s.data with
    | '[' :: rest =>
      if rest.getLast? = some ']' then
        let parts := (rest.dropLast.foldr
          (fun c (acc : List (List Char)) =>
            if c = ',' then [] :: acc
            else match acc with
              | [] => [[c]]
              | h :: t => (c :: h) :: t) [[]])
        if parts.all (fun p => p ≠ [] ∧ p.all Char.isDigit) then
          .ok (parts.map digits_val)
        else .error ("invalid array element in " ++ s)
      else .error ("expected a sequence, got " ++ s)
    | _ => .error ("expected a sequence, got " ++ s)

/-! ## Pagination (projects.rs) -/

/-- The pagination metadata of models.rs as used by `stream_all`
(models.rs is not among the provided sources; the two fields read by
projects.rs, with the spec's integer types). -/
structure Pagination where
  page : Nat
  total_pages : Nat
  deriving DecidableEq

/-- models.rs `PaginatedResponse<T>`: both fields optional, per the uses
`response.data.unwrap_or_default()` / `response.pagination.as_ref()` in
projects.rs and the spec's section 3 envelope. -/
structure PaginatedResponse (T : Type) where
  data : Option (List T)
  pagination : Option Pagination

/-- One pull of the unfold inside projects.rs `ProjectsService::stream_all`
(lines 361-387), over the page-fetch oracle `fetch` (the `self.list(...)`
call for a given page number).  State is `(current_page, done)`; `none` means
the stream is exhausted.  On success the yielded chunk is the data items
(empty when absent) as successes, the page advances and `done` is set when
the server reports no further pages (missing pagination counts as no more);
on failure the chunk is the single error item and `done` is set.  The page
counter is a u32 in the source (`1u32` start, `state.0 = page + 1`), so the
increment is taken modulo 2^32 (release-profile wrapping; a debug build
would abort once the counter overflows, as for the backoff multiplier). -/
def stream_step {T : Type} (fetch : Nat → Except Error (PaginatedResponse T))
    (st : Nat × Bool) : Option (List (Except Error T) × (Nat × Bool)) :=
  if st.2 then none
  else
    match fetch st.1 with
    | .ok response =>
      let has_more := match response.pagination with
        | some p => decide (p.page < p.total_pages)
        | none => false
      some ((response.data.getD []).map .ok, ((st.1 + 1) % 2 ^ 32, !has_more))
    | .error e => some ([.error e], (st.1, true))

/-- Drive `stream_step` for at most `fuel` pulls, returning the concatenated
items (the `flat_map` of the source), the number of listing calls made, and
the final state.  The stream itself is the limit over `fuel`; every claim
concerns a terminating prefix, and once `done` is set the output is
independent of any further fuel. -/
def stream_run {T : Type} (fetch : Nat → Except Error (PaginatedResponse T)) :
    Nat → Nat × Bool → List (Except Error T) × Nat × (Nat × Bool)
  | 0, st => ([], 0, st)
  | fuel + 1, st =>
    match stream_step fetch st with
    | none => ([], 0, st)
    | some (items, st') =>
      let r := stream_run fetch fuel st'
      (items ++ r.1, r.2.1 + 1, r.2.2)

/-- projects.rs `ProjectsService::stream_all`: the unfold starts at page 1
with `done = false`. -/
def ProjectsService.stream_all {T : Type} (fetch : Nat → Except Error (PaginatedResponse T))
    (fuel : Nat) : List (Except Error T) × Nat × (Nat × Bool) :=
  stream_run fetch fuel (1, false)

/-- projects.rs `ProjectsService::featured` (lines 295-305): the query
building is outside the claims; given the result of the GET for
/projects/featured, `?` propagates the error and otherwise the envelope's
data items (empty when absent) are returned, discarding the pagination. -/
def ProjectsService.featured {T : Type} (r : Except Error (PaginatedResponse T)) :
    Except Error (List T) :=
  match r with
  | .error e => .error e
  | .ok response => .ok (response.data.getD [])

/-- projects.rs `ProjectsService::trending` (lines 313-326): identical result
shaping to `featured`. -/
def ProjectsService.trending {T : Type} (r : Except Error (PaginatedResponse T)) :
    Except Error (List T) :=
  match r with
  | .error e => .error e
  | .ok response => .ok (response.data.getD [])

/-! ## Lemmas about the retry loop -/

/-- Shifting the start index out of a `List.range` map. -/
lemma range_map_shift (f : Nat → Nat) (i k : Nat) :
    (List.range (k + 1)).map (fun j => f (i + j)) =
      f i :: (List.range k).map (fun j => f (i + 1 + j)) := by
  rw [List.range_succ_eq_map, List.map_cons, List.map_map]
  congr 1
  apply List.map_congr_left
  intro a _
  simp only [Function.comp_apply]
  congr 1
  omega

/-- The loop makes at most `remaining` send attempts. -/
lemma exec_go_sends_le {T : Type} (cfg : ClientConfig) (dec : String → Except String T)
    (attempts : Nat → AttemptOutcome) :
    ∀ (r i : Nat) (lerr : Option Error), (exec_go cfg dec attempts i r lerr).sends ≤ r := by
  intro r
  induction r with
  | zero => intro i lerr; simp [exec_go]
  | succ r ih =>
    intro i lerr
    cases h : attempts i with
    | completed resp => simp [exec_go, h]
    | transportErr m =>
      by_cases hr : r = 0
      · subst hr; simp [exec_go, h]
      · simp only [exec_go, h, hr, if_false]
        have := ih (i + 1) (some (.HttpClient m))
        omega

/-- If the first `k` attempts starting at index `i` fail at the transport
level and `k < remaining`, the loop makes at least `k + 1` send attempts. -/
lemma exec_go_sends_lb {T : Type} (cfg : ClientConfig) (dec : String → Except String T)
    (attempts : Nat → AttemptOutcome) :
    ∀ (k r i : Nat) (lerr : Option Error), k < r →
      (∀ j, j < k → ∃ m, attempts (i + j) = .transportErr m) →
      k + 1 ≤ (exec_go cfg dec attempts i r lerr).sends := by
  intro k
  induction k with
  | zero =>
    intro r i lerr hr _
    obtain ⟨r, rfl⟩ : ∃ r', r = r' + 1 := ⟨r - 1, by omega⟩
    cases h : attempts i with
    | completed resp => simp [exec_go, h]
    | transportErr m =>
      by_cases hr0 : r = 0
      · subst hr0; simp [exec_go, h]
      · simp [exec_go, h, hr0]
  | succ k ih =>
    intro r i lerr hr hts
    obtain ⟨m, hm⟩ := hts 0 (Nat.succ_pos k)
    rw [Nat.add_zero] at hm
    obtain ⟨r, rfl⟩ : ∃ r', r = r' + 1 := ⟨r - 1, by omega⟩
    have hr0 : r ≠ 0 := by omega
    have hrec := ih r (i + 1) (some (.HttpClient m)) (by omega)
      (fun j hj => by
        obtain ⟨m', hm'⟩ := hts (j + 1) (by omega)
        exact ⟨m', by rw [show i + 1 + j = i + (j + 1) by omega]; exact hm'⟩)
    simp only [exec_go, hm, hr0, if_false]
    omega

/-- If the first `k` attempts starting at index `i` fail at the transport
level and attempt `i + k` completes (with `k < remaining`), the loop returns
`handle_response` of that response after `k + 1` sends, having slept the
exponential-backoff delays of attempt indices `i, ..., i + k - 1`. -/
lemma exec_go_first_completed {T : Type} (cfg : ClientConfig) (dec : String → Except String T)
    (attempts : Nat → AttemptOutcome) :
    ∀ (k i r : Nat) (lerr : Option Error) (resp : HttpResponse), k < r →
      (∀ j, j < k → ∃ m, attempts (i + j) = .transportErr m) →
      attempts (i + k) = .completed resp →
      exec_go cfg dec attempts i r lerr =
        { result := handle_response dec resp, sends := k + 1,
          delays := (List.range k).map (fun j => cfg.retry_delay * pow2u32 (i + j)) } := by
  intro k
  induction k with
  | zero =>
    intro i r lerr resp hr _ hc
    rw [Nat.add_zero] at hc
    obtain ⟨r, rfl⟩ : ∃ r', r = r' + 1 := ⟨r - 1, by omega⟩
    simp [exec_go, hc]
  | succ k ih =>
    intro i r lerr resp hr hts hc
    obtain ⟨m, hm⟩ := hts 0 (Nat.succ_pos k)
    rw [Nat.add_zero] at hm
    obtain ⟨r, rfl⟩ : ∃ r', r = r' + 1 := ⟨r - 1, by omega⟩
    have hr0 : r ≠ 0 := by omega
    have hrec := ih (i + 1) r (some (.HttpClient m)) resp (by omega)
      (fun j hj => by
        obtain ⟨m', hm'⟩ := hts (j + 1) (by omega)
        exact ⟨m', by rw [show i + 1 + j = i + (j + 1) by omega]; exact hm'⟩)
      (by rw [show i + 1 + k = i + (k + 1) by omega]; exact hc)
    simp only [exec_go, hm, hr0, if_false, hrec]
    rw [range_map_shift (fun j => cfg.retry_delay * pow2u32 j) i (k := k)]

/-- If every attempt index in `i, ..., i + remaining - 1` fails at the
transport level, the loop exhausts its `remaining ≥ 1` attempts and returns
the transport error of the last attempt. -/
lemma exec_go_all_transport {T : Type} (cfg : ClientConfig) (dec : String → Except String T)
    (attempts : Nat → AttemptOutcome) (msg : Nat → String) :
    ∀ (r i : Nat) (lerr : Option Error), 1 ≤ r →
      (∀ j, j < r → attempts (i + j) = .transportErr (msg (i + j))) →
      exec_go cfg dec attempts i r lerr =
        { result := .error (.HttpClient (msg (i + (r - 1)))), sends := r,
          delays := (List.range (r - 1)).map (fun j => cfg.retry_delay * pow2u32 (i + j)) } := by
  intro r
  induction r with
  | zero => intro i lerr h; omega
  | succ r ih =>
    intro i lerr _ hts
    have h0 := hts 0 (Nat.succ_pos r)
    rw [Nat.add_zero] at h0
    by_cases hr : r = 0
    · subst hr
      simp [exec_go, h0]
    · have hrec := ih (i + 1) (some (.HttpClient (msg i))) (by omega)
        (fun j hj => by
          rw [show i + 1 + j = i + (j + 1) by omega]
          exact hts (j + 1) (by omega))
      simp only [exec_go, h0, hr, if_false, hrec]
      rw [show i + 1 + (r - 1) = i + (r + 1 - 1) by omega]
      rw [show r + 1 - 1 = (r - 1) + 1 by omega]
      rw [range_map_shift (fun j => cfg.retry_delay * pow2u32 j) i (k := r - 1)]

/-- C1: for every request executed by the pipeline, at most `max_retries + 1`
send attempts are made; a transport-level failure (with attempts remaining)
is retried, while any attempt that completes with an HTTP status code -
success or failure, including 429 - terminates the loop at that attempt and
is never retried. -/
theorem c1_retry_attempt_bounds {T : Type} (cfg : ClientConfig) (dec : String → Except String T)
    (attempts : Nat → AttemptOutcome) :
    (execute_request cfg dec attempts).sends ≤ cfg.max_retries + 1
    ∧ (∀ i, i < cfg.max_retries → (∀ j, j ≤ i → ∃ m, attempts j = .transportErr m) →
        i + 2 ≤ (execute_request cfg dec attempts).sends)
    ∧ (∀ k resp, k ≤ cfg.max_retries →
        (∀ j, j < k → ∃ m, attempts j = .transportErr m) →
        attempts k = .completed resp →
        (execute_request cfg dec attempts).sends = k + 1
        ∧ (execute_request cfg dec attempts).result = handle_response dec resp) := by
  refine ⟨exec_go_sends_le cfg dec attempts _ 0 none, ?_, ?_⟩
  · intro i hi hts
    have h := exec_go_sends_lb cfg dec attempts (i + 1) (cfg.max_retries + 1) 0 none (by omega)
      (fun j hj => by simpa using hts j (by omega))
    rw [execute_request]
    omega
  · intro k resp hk hts hc
    have h := exec_go_first_completed cfg dec attempts k 0 (cfg.max_retries + 1) none resp
      (by omega) (fun j hj => by simpa using hts j hj) (by simpa using hc)
    rw [execute_request, h]
    exact ⟨rfl, rfl⟩

/-- Decoder for a plain string result, used only to instantiate witnesses. -/
def dec_id : String → Except String String := fun s => .ok s

/-- Default configuration with a nonempty API key (3 retries, 1 s delay). -/
def cfg_w : ClientConfig := { ClientConfig.default_config with api_key := "k" }

/-- A completed 429 response carrying a numeric Retry-After header. -/
def resp429_w : HttpResponse :=
  { status := 429, headers := [("Retry-After", "120")], body := "slow down",
    url := "https://api.xrpl.sale/projects" }

/-- Attempt oracle: one transport failure, then the 429 response. -/
def att_w : Nat → AttemptOutcome := fun i =>
  if i = 0 then .transportErr "connection reset" else .completed resp429_w

theorem c1_retry_attempt_bounds_witness :
    (execute_request cfg_w dec_id att_w).sends = 2
    ∧ (execute_request cfg_w dec_id att_w).result =
        .error (.RateLimit "slow down" (some 120)) := by
  obtain ⟨-, -, h3⟩ := c1_retry_attempt_bounds cfg_w dec_id att_w
  have h := h3 1 resp429_w (by decide)
    (fun j hj => ⟨"connection reset", by
      have hj0 : j = 0 := by omega
      subst hj0
      rfl⟩) rfl
  exact ⟨h.1, by rw [h.2]; rfl⟩

/-- A completed 200 response whose body decodes successfully. -/
def resp_ok : HttpResponse :=
  { status := 200, headers := [], body := "ok", url := "https://api.xrpl.sale/projects" }

/-- Attempt oracle for the C2 counterexample: attempt indices 0-32 fail at
the transport level, attempt 33 completes successfully. -/
def att_c2 : Nat → AttemptOutcome := fun i =>
  if i < 33 then .transportErr "connection reset" else .completed resp_ok

/-- Configuration with `max_retries = 33` and a unit base delay. -/
def cfg_c2 : ClientConfig :=
  { ClientConfig.default_config with api_key := "k", max_retries := 33, retry_delay := 1 }

/-- C2, counterexample: with `max_retries = 33` and `retry_base_delay = 1`,
a call whose first 33 attempts fail at the transport level and whose 34th
attempt succeeds does return the decoded value, but the slept delays are NOT
`retry_base_delay * 2^0, ..., 2^32` as the claim states: the backoff
multiplier is computed as `2_u32.pow(attempt)` in u32 arithmetic, so the
delay before the final attempt is `1 * (2^32 mod 2^32) = 0`, not `2^32`. -/
theorem c2_backoff_wrap_counterexample :
    (List.range 33).map att_c2 = List.replicate 33 (AttemptOutcome.transportErr "connection reset")
    ∧ att_c2 33 = .completed resp_ok
    ∧ cfg_c2.max_retries = 33
    ∧ (execute_request cfg_c2 dec_id att_c2).result = .ok "ok"
    ∧ (execute_request cfg_c2 dec_id att_c2).delays
        ≠ (List.range 33).map (fun j => cfg_c2.retry_delay * 2 ^ j) := by
  refine ⟨by decide, rfl, rfl, rfl, by decide⟩

/-- C2 (amended: the backoff multiplier `2^i` is computed in u32 arithmetic
and therefore taken modulo 2^32, with which it coincides for `i ≤ 31`): for
every call and every `k ≤ max_retries`, if the first `k` send attempts fail
at the transport level and attempt `k + 1` completes with a response that
decodes to `v`, the call returns `v` with backoff delays
`retry_base_delay * (2^i mod 2^32)` for `i = 0, ..., k - 1` between
consecutive attempts; and if every one of the `max_retries + 1` attempts
fails at the transport level, the call returns the Transport (`HttpClient`)
error produced by the last attempt. -/
theorem c2_retry_backoff_amended {T : Type} (cfg : ClientConfig) (dec : String → Except String T)
    (attempts : Nat → AttemptOutcome) :
    (∀ k resp v, k ≤ cfg.max_retries →
        (∀ j, j < k → ∃ m, attempts j = .transportErr m) →
        attempts k = .completed resp →
        handle_response dec resp = .ok v →
        (execute_request cfg dec attempts).result = .ok v
        ∧ (execute_request cfg dec attempts).delays =
            (List.range k).map (fun j => cfg.retry_delay * pow2u32 j))
    ∧ (∀ msg : Nat → String,
        (∀ j, j ≤ cfg.max_retries → attempts j = .transportErr (msg j)) →
        (execute_request cfg dec attempts).result = .error (.HttpClient (msg cfg.max_retries))
        ∧ (execute_request cfg dec attempts).sends = cfg.max_retries + 1) := by
  constructor
  · intro k resp v hk hts hc hdec
    have h := exec_go_first_completed cfg dec attempts k 0 (cfg.max_retries + 1) none resp
      (by omega) (fun j hj => by simpa using hts j hj) (by simpa using hc)
    rw [execute_request, h]
    exact ⟨by rw [hdec], by simp⟩
  · intro msg hts
    have h := exec_go_all_transport cfg dec attempts msg (cfg.max_retries + 1) 0 none (by omega)
      (fun j hj => by simpa using hts j (by omega))
    rw [execute_request, h]
    exact ⟨by simp, rfl⟩

/-- Attempt oracle: two transport failures, then success. -/
def att_w2 : Nat → AttemptOutcome := fun i =>
  if i < 2 then .transportErr "connection reset" else .completed resp_ok

/-- Attempt oracle: every attempt fails at the transport level. -/
def att_all : Nat → AttemptOutcome := fun _ => .transportErr "timeout"

theorem c2_retry_backoff_amended_witness :
    ((execute_request cfg_w dec_id att_w2).result = .ok "ok"
      ∧ (execute_request cfg_w dec_id att_w2).delays = [1000000000, 2000000000])
    ∧ (execute_request cfg_w dec_id att_all).result = .error (.HttpClient "timeout") := by
  constructor
  · have h := (c2_retry_backoff_amended cfg_w dec_id att_w2).1 2 resp_ok "ok" (by decide)
      (fun j hj => ⟨"connection reset", by
        have : j = 0 ∨ j = 1 := by omega
        rcases this with rfl | rfl <;> rfl⟩) rfl rfl
    exact ⟨h.1, by rw [h.2]; decide⟩
  · exact ((c2_retry_backoff_amended cfg_w dec_id att_all).2 (fun _ => "timeout")
      (fun j _ => rfl)).1

/-- C3: for every completed response with a non-2xx status, the pipeline
returns exactly the error kind determined by the status - 400 BadRequest,
401 Unauthorized, 404 NotFound, 429 RateLimit, each carrying the raw body
text; any other non-2xx status maps to the Api kind carrying the status
code, body text and request URL.  For 429, a Retry-After header whose value
is the decimal representation of `n` (below 2^64) yields `retry_after = n`;
an absent or non-numeric header yields an absent hint. -/
theorem c3_status_error_mapping {T : Type} (dec : String → Except String T) (r : HttpResponse)
    (hns : status_is_success r.status = false) :
    (r.status = 400 → handle_response dec r = .error (.BadRequest r.body))
    ∧ (r.status = 401 → handle_response dec r = .error (.Unauthorized r.body))
    ∧ (r.status = 404 → handle_response dec r = .error (.NotFound r.body))
    ∧ (r.status = 429 → header_get r.headers "retry-after" = none →
        handle_response dec r = .error (.RateLimit r.body none))
    ∧ (∀ s, r.status = 429 → header_get r.headers "retry-after" = some s →
        rust_parse_u64 s = none → handle_response dec r = .error (.RateLimit r.body none))
    ∧ (∀ s n, r.status = 429 → header_get r.headers "retry-after" = some s →
        s.data ≠ [] → s.data.all Char.isDigit → digits_val s.data = n → n < 2 ^ 64 →
        handle_response dec r = .error (.RateLimit r.body (some n)))
    ∧ (r.status ≠ 400 → r.status ≠ 401 → r.status ≠ 404 → r.status ≠ 429 →
        handle_response dec r = .error (.Api r.status r.body r.url)) := by
  refine ⟨?_, ?_, ?_, ?_, ?_, ?_, ?_⟩
  · intro h4
    have hns' := h4 ▸ hns
    simp [handle_response, hns', h4]
  · intro h4
    have hns' := h4 ▸ hns
    simp [handle_response, hns', h4]
  · intro h4
    have hns' := h4 ▸ hns
    simp [handle_response, hns', h4]
  · intro h4 hh
    have hns' := h4 ▸ hns
    simp [handle_response, hns', h4, hh]
  · intro s h4 hh hp
    have hns' := h4 ▸ hns
    simp [handle_response, hns', h4, hh, hp]
  · intro s n h4 hh hne hall hval hlt
    have hns' := h4 ▸ hns
    have hp : rust_parse_u64 s = some n := by
      have hplus : ¬ s.data.head? = some '+' := by
        cases hd : s.data with
        | nil => simp
        | cons c rest =>
          have hcd : c.isDigit := by
            rw [hd, List.all_cons, Bool.and_eq_true] at hall
            exact hall.1
          simp only [List.head?, Option.some_inj]
          intro hcp
          rw [hcp] at hcd
          exact absurd hcd (by decide)
      rw [rust_parse_u64]
      simp only [hplus, if_false]
      rw [if_pos ⟨hne, hall, hval ▸ hlt⟩, hval]
    simp [handle_response, hns', h4, hh, hp]
  · intro h400 h401 h404 h429
    simp [handle_response, hns, h400, h401, h404, h429]

/-- A 500 response, for the catch-all arm. -/
def resp500_w : HttpResponse :=
  { status := 500, headers := [], body := "boom", url := "https://api.xrpl.sale/projects" }

theorem c3_status_error_mapping_witness :
    handle_response dec_id resp429_w = .error (.RateLimit "slow down" (some 120))
    ∧ handle_response dec_id resp500_w = .error (.Api 500 "boom" "https://api.xrpl.sale/projects") := by
  constructor
  · exact (c3_status_error_mapping dec_id resp429_w (by decide)).2.2.2.2.2.1 "120" 120
      rfl (by decide) (by decide) (by decide) (by decide) (by decide)
  · exact (c3_status_error_mapping dec_id resp500_w (by decide)).2.2.2.2.2.2
      (by decide) (by decide) (by decide) (by decide)

/-- C4: evaluation of `Client::build_url` at the default production base and
the path "/projects".  The claim (and spec section 4.1) says the request URL
is the configured base concatenated with the slash-stripped path, which
would be "https://api.xrpl.sale/v1/projects"; the code instead resolves the
path as a WHATWG relative reference against the base, and because the base
"https://api.xrpl.sale/v1" has no trailing slash, `Url::join` replaces its
final segment: every request drops the configured "/v1" prefix.  The
Configuration-error clause for an unparsable base does hold. -/
theorem c4_url_join_eval :
    Client.build_url { config := cfg_w } "/projects"
        = .ok { scheme := "https", host := "api.xrpl.sale", segments := ["projects"] }
    ∧ Url.render { scheme := "https", host := "api.xrpl.sale", segments := ["projects"] }
        = "https://api.xrpl.sale/projects"
    ∧ spec_concat_url (Client.base_url { config := cfg_w }) "/projects"
        = "https://api.xrpl.sale/v1/projects"
    ∧ "https://api.xrpl.sale/projects" ≠ "https://api.xrpl.sale/v1/projects"
    ∧ Client.build_url { config := { cfg_w with base_url := some "not a url" } } "/projects"
        = .error (.Configuration "Invalid base URL: relative URL without a base") := by
  refine ⟨rfl, by decide, by decide, by decide, rfl⟩

/-- On a 2xx response with an empty body, `handle_response` decodes the JSON
document null, mapping a decoder failure to `Parse`. -/
lemma handle_response_empty_success {T : Type} (dec : String → Except String T)
    (resp : HttpResponse) (hs : status_is_success resp.status = true) (hb : resp.body = "") :
    handle_response dec resp =
      match dec "null" with
      | .ok v => .ok v
      | .error e => .error (.Parse e) := by
  simp [handle_response, hs, hb]

/-- A completed 200 response with an empty body. -/
def resp_nocontent : HttpResponse :=
  { status := 200, headers := [], body := "", url := "https://api.xrpl.sale/projects" }

/-- C5, counterexample: a 2xx response with an empty body produces a Parse
error when the expected decoded type rejects JSON null - for example
`Vec<_>` (the expected type of `ProjectsService::tiers`), whose serde
deserializer rejects null with an invalid-type error.  The "never produces a
Parse error" part of the claim therefore fails for this expected type. -/
theorem c5_empty_body_counterexample :
    status_is_success resp_nocontent.status = true
    ∧ resp_nocontent.body = ""
    ∧ (verb_request .GET cfg_w serde_list_nat_from_str (fun _ => .completed resp_nocontent)).result
        = .error (.Parse "invalid type: null, expected a sequence at line 1 column 4") := by
  refine ⟨by decide, rfl, rfl⟩

/-- C5 (amended: the empty body is decoded as the JSON document null; for
expected decoded types that admit null - such as `Option`, whose decode of
null is the absent value - this yields the no-value representation and never
a Parse error, while expected types that reject null, such as `Vec`, yield a
Parse error): for every verb operation, a 2xx response with an empty body on
the first attempt decodes through the decoder's value at "null". -/
theorem c5_empty_body_amended {T : Type} (m : HttpMethod) (cfg : ClientConfig)
    (attempts : Nat → AttemptOutcome) (resp : HttpResponse)
    (h0 : attempts 0 = .completed resp)
    (hs : status_is_success resp.status = true)
    (hb : resp.body = "") :
    (∀ (dec : String → Except String T) (v : T), dec "null" = .ok v →
        (verb_request m cfg dec attempts).result = .ok v)
    ∧ (verb_request m cfg serde_option_nat_from_str attempts).result = .ok none
    ∧ (verb_request m cfg serde_list_nat_from_str attempts).result =
        .error (.Parse "invalid type: null, expected a sequence at line 1 column 4") := by
  have hexec : ∀ {T' : Type} (dec : String → Except String T'),
      (verb_request m cfg dec attempts).result = handle_response dec resp := by
    intro T' dec
    have h := exec_go_first_completed cfg dec attempts 0 0 (cfg.max_retries + 1) none resp
      (by omega) (fun j hj => absurd hj (by omega)) (by simpa using h0)
    rw [verb_request, execute_request, h]
  refine ⟨?_, ?_, ?_⟩
  · intro dec v hdec
    rw [hexec dec, handle_response_empty_success dec resp hs hb, hdec]
  · rw [hexec serde_option_nat_from_str, handle_response_empty_success _ resp hs hb]
    rfl
  · rw [hexec serde_list_nat_from_str, handle_response_empty_success _ resp hs hb]
    rfl

theorem c5_empty_body_amended_witness :
    (verb_request .DELETE cfg_w serde_option_nat_from_str
        (fun _ => .completed resp_nocontent)).result = .ok none := by
  exact (c5_empty_body_amended (T := Unit) .DELETE cfg_w (fun _ => .completed resp_nocontent)
    resp_nocontent rfl (by decide) rfl).2.1

/-! ## Lemmas about the pagination stream -/

/-- Once the done flag is set the stream yields nothing and makes no call. -/
lemma stream_run_done {T : Type} (fetch : Nat → Except Error (PaginatedResponse T)) :
    ∀ (fuel q : Nat), stream_run fetch fuel (q, true) = ([], 0, (q, true)) := by
  intro fuel q
  cases fuel with
  | zero => rfl
  | succ f => simp [stream_run, stream_step]

/-- A run over pages `p, ..., p + n` (with the last page number below the
u32 wrap) in which every page before the last reports more pages and page
`p + n` reports the final page: exactly `n + 1` listing calls, final state
`((p + n + 1) mod 2^32, done)`, and no error item. -/
lemma stream_run_ok_pages {T : Type} (fetch : Nat → Except Error (PaginatedResponse T)) :
    ∀ (n p : Nat),
      (∀ i, p ≤ i → i < p + n → ∃ resp pg, fetch i = .ok resp ∧ resp.pagination = some pg
        ∧ pg.page < pg.total_pages) →
      (∃ resp pg, fetch (p + n) = .ok resp ∧ resp.pagination = some pg
        ∧ pg.page = pg.total_pages) →
      p + n < 2 ^ 32 →
      ∀ fuel, n + 1 ≤ fuel →
        (stream_run fetch fuel (p, false)).2.1 = n + 1
        ∧ (stream_run fetch fuel (p, false)).2.2 = ((p + n + 1) % 2 ^ 32, true)
        ∧ ∀ e, Except.error e ∉ (stream_run fetch fuel (p, false)).1 := by
  intro n
  induction n with
  | zero =>
    intro p _ hlast _ fuel hf
    obtain ⟨resp, pg, hok, hpg, he⟩ := hlast
    rw [Nat.add_zero] at hok
    obtain ⟨f, rfl⟩ : ∃ f, fuel = f + 1 := ⟨fuel - 1, by omega⟩
    simp [stream_run, stream_step, hok, hpg, he, stream_run_done]
  | succ n ih =>
    intro p hmid hlast hlt32 fuel hf
    obtain ⟨f, rfl⟩ : ∃ f, fuel = f + 1 := ⟨fuel - 1, by omega⟩
    obtain ⟨resp, pg, hok, hpg, hlt⟩ := hmid p (Nat.le_refl p) (by omega)
    have hm : decide (pg.page < pg.total_pages) = true := by simpa using hlt
    have hp1 : (p + 1) % 2 ^ 32 = p + 1 := Nat.mod_eq_of_lt (by omega)
    have ihh := ih (p + 1)
      (fun i h1 h2 => hmid i (by omega) (by omega))
      (by rw [show p + 1 + n = p + (n + 1) by omega]; exact hlast)
      (by omega)
      f (by omega)
    obtain ⟨ih1, ih2, ih3⟩ := ihh
    refine ⟨?_, ?_, ?_⟩
    · simp only [stream_run, stream_step, hok, hpg, hm, Bool.not_true, if_false, hp1]
      simp [ih1]
    · simp only [stream_run, stream_step, hok, hpg, hm, Bool.not_true, if_false, hp1]
      simp [ih2]
      omega
    · intro e
      simp only [stream_run, stream_step, hok, hpg, hm, Bool.not_true, if_false, hp1]
      simp [List.mem_append, List.mem_map]
      exact fun h => ih3 e (by simpa using h)

/-- Prefixing a run by `k` pages that all report more pages (all of them
below the u32 wrap) preserves an error item of the continuation, which
starts at the wrapped page counter `(p + k) mod 2^32`. -/
lemma stream_run_error_mem {T : Type} (fetch : Nat → Except Error (PaginatedResponse T)) :
    ∀ (k p f : Nat) (e : Error),
      (∀ i, p ≤ i → i < p + k → ∃ resp pg, fetch i = .ok resp ∧ resp.pagination = some pg
        ∧ pg.page < pg.total_pages) →
      p < 2 ^ 32 → p + k ≤ 2 ^ 32 →
      Except.error e ∈ (stream_run fetch f ((p + k) % 2 ^ 32, false)).1 →
      Except.error e ∈ (stream_run fetch (k + f) (p, false)).1 := by
  intro k
  induction k with
  | zero =>
    intro p f e _ hp _ hmem
    rw [Nat.add_zero, Nat.mod_eq_of_lt hp] at hmem
    simpa using hmem
  | succ k ih =>
    intro p f e hmid hp hpk hmem
    obtain ⟨resp, pg, hok, hpg, hlt⟩ := hmid p (Nat.le_refl p) (by omega)
    have hm : decide (pg.page < pg.total_pages) = true := by simpa using hlt
    rw [show k + 1 + f = (k + f) + 1 by omega]
    simp only [stream_run, stream_step, hok, hpg, hm, Bool.not_true]
    simp only [List.mem_append, List.mem_map, reduceCtorEq, and_false, exists_false,
      false_or, Bool.false_eq_true, if_false]
    by_cases hp1 : p + 1 < 2 ^ 32
    · rw [Nat.mod_eq_of_lt hp1]
      exact ih (p + 1) f e
        (fun i hi1 hi2 => hmid i (by omega) (by omega))
        hp1 (by omega)
        (by rw [show p + 1 + k = p + (k + 1) by omega]; exact hmem)
    · have hk0 : k = 0 := by omega
      subst hk0
      rw [show p + 1 = 2 ^ 32 by omega, Nat.mod_self]
      rw [show p + (0 + 1) = 2 ^ 32 by omega, Nat.mod_self] at hmem
      simpa using hmem

/-- A page-fetch oracle on which the original C6 claim fails at `N = 2^32`:
pages `1..2^32 - 1` report more pages, page `2^32` reports the final page,
and page 0 - which the wrapped u32 counter reaches instead of page `2^32` -
fails.  The data payloads are empty; only the pagination comparisons matter
to the claim. -/
def fetch_big : Nat → Except Error (PaginatedResponse Nat) := fun i =>
  if i = 0 then .error (.HttpClient "wrapped to page zero")
  else if i < 2 ^ 32 then
    .ok { data := some [], pagination := some { page := 1, total_pages := 2 } }
  else .ok { data := some [], pagination := some { page := 1, total_pages := 1 } }

/-- C6, counterexample: the negation of the claim's first scenario (its
"ends cleanly with no error item" consequence, a weakening of the full
claim, so its negation refutes the claim as stated).  At `fetch_big` and
`N = 2^32` the hypotheses hold, but the stream's page counter is a u32
(`state.0 = page + 1` at projects.rs:376): after fetching pages
`1..2^32 - 1` it wraps to 0 instead of reaching page `2^32`, the listing
call for page 0 fails, and the stream yields an error item. -/
theorem c6_page_wrap_counterexample :
    ¬ (∀ (fetch : Nat → Except Error (PaginatedResponse Nat)) (N : Nat), 1 ≤ N →
        (∀ i, 1 ≤ i → i < N → ∃ resp pg, fetch i = .ok resp ∧ resp.pagination = some pg
          ∧ pg.page < pg.total_pages) →
        (∃ resp pg, fetch N = .ok resp ∧ resp.pagination = some pg
          ∧ pg.page = pg.total_pages) →
        ∀ fuel, N ≤ fuel →
          ∀ e, Except.error e ∉ (ProjectsService.stream_all fetch fuel).1) := by
  intro hclaim
  have h1m : Except.error (Error.HttpClient "wrapped to page zero")
      ∈ (stream_run fetch_big 1 ((1 + (2 ^ 32 - 1)) % 2 ^ 32, false)).1 := by
    rw [show (1 + (2 ^ 32 - 1)) % 2 ^ 32 = 0 by omega]
    simp [stream_run, stream_step, fetch_big]
  have hmem := stream_run_error_mem fetch_big (2 ^ 32 - 1) 1 1
    (Error.HttpClient "wrapped to page zero")
    (fun i hi1 hi2 => by
      have hi0 : ¬ i = 0 := by omega
      have hi32 : i < 2 ^ 32 := by omega
      exact ⟨{ data := some [], pagination := some { page := 1, total_pages := 2 } },
        { page := 1, total_pages := 2 },
        by simp only [fetch_big]; rw [if_neg hi0, if_pos hi32],
        rfl, by decide⟩)
    (by omega) (by omega) h1m
  rw [show 2 ^ 32 - 1 + 1 = 2 ^ 32 by omega] at hmem
  exact hclaim fetch_big (2 ^ 32) (by omega)
    (fun i hi1 hi2 => by
      have hi0 : ¬ i = 0 := by omega
      have hi32 : i < 2 ^ 32 := by omega
      exact ⟨{ data := some [], pagination := some { page := 1, total_pages := 2 } },
        { page := 1, total_pages := 2 },
        by simp only [fetch_big]; rw [if_neg hi0, if_pos hi32],
        rfl, by decide⟩)
    ⟨{ data := some [], pagination := some { page := 1, total_pages := 1 } },
      { page := 1, total_pages := 1 },
      by simp only [fetch_big]; rw [if_neg (by omega), if_neg (by omega)],
      rfl, rfl⟩
    (2 ^ 32) (Nat.le_refl _)
    (Error.HttpClient "wrapped to page zero") hmem

/-- C6 (amended: the stream's page counter is a u32, so the scenario is
restricted to `N < 2^32`; at `N = 2^32` the wrapped counter re-fetches from
page 0 instead of reaching page `N` in a release build, and a debug build
aborts): given pages where `pagination.page < pagination.total_pages` for
pages `1..N-1` and equality at page `N`, with `N < 2^32`, the stream
performs exactly `N` listing calls (pages 1 through N in order, ending at
the wrapped page counter `(N + 1) mod 2^32`) and ends cleanly with no error
item; and given a page-1 success indicating more pages and a failure on
page 2, the stream yields page 1's items, then exactly one error item, then
ends after exactly 2 listing calls - page 3 is never fetched (the result
does not depend on `fetch` beyond page 2). -/
theorem c6_stream_termination {T : Type} (fetch : Nat → Except Error (PaginatedResponse T)) :
    (∀ N, 1 ≤ N → N < 2 ^ 32 →
      (∀ i, 1 ≤ i → i < N → ∃ resp pg, fetch i = .ok resp ∧ resp.pagination = some pg
        ∧ pg.page < pg.total_pages) →
      (∃ resp pg, fetch N = .ok resp ∧ resp.pagination = some pg
        ∧ pg.page = pg.total_pages) →
      ∀ fuel, N ≤ fuel →
        (ProjectsService.stream_all fetch fuel).2.1 = N
        ∧ (ProjectsService.stream_all fetch fuel).2.2 = ((N + 1) % 2 ^ 32, true)
        ∧ ∀ e, Except.error e ∉ (ProjectsService.stream_all fetch fuel).1)
    ∧ (∀ resp1 pg1 e, fetch 1 = .ok resp1 → resp1.pagination = some pg1 →
        pg1.page < pg1.total_pages → fetch 2 = .error e →
        ∀ fuel, 2 ≤ fuel →
          ProjectsService.stream_all fetch fuel =
            ((resp1.data.getD []).map Except.ok ++ [Except.error e], 2, (2, true))) := by
  constructor
  · intro N hN hN32 hmid hlast fuel hf
    obtain ⟨n, rfl⟩ : ∃ n, N = n + 1 := ⟨N - 1, by omega⟩
    obtain ⟨h1, h2, h3⟩ := stream_run_ok_pages fetch n 1
      (fun i hi1 hi2 => hmid i hi1 (by omega))
      (by rw [show 1 + n = n + 1 by omega]; exact hlast)
      (by omega)
      fuel (by omega)
    refine ⟨h1, ?_, h3⟩
    rw [ProjectsService.stream_all, h2]
    refine congrArg (fun x => (x, true)) (by omega)
  · intro resp1 pg1 e h1 hpg hlt h2 fuel hf
    obtain ⟨f, rfl⟩ : ∃ f, fuel = f + 2 := ⟨fuel - 2, by omega⟩
    have hm : decide (pg1.page < pg1.total_pages) = true := by simpa using hlt
    simp [ProjectsService.stream_all, stream_run, stream_step, h1, hpg, hm, h2, stream_run_done]

/-- Two successful pages then nothing: page 1 of 2, page 2 of 2. -/
def fetch_w : Nat → Except Error (PaginatedResponse Nat) := fun i =>
  if i = 1 then .ok { data := some [10, 11], pagination := some { page := 1, total_pages := 2 } }
  else if i = 2 then .ok { data := some [12], pagination := some { page := 2, total_pages := 2 } }
  else .error (.HttpClient "unused")

/-- Page 1 of 3 succeeds, page 2 fails. -/
def fetch_err : Nat → Except Error (PaginatedResponse Nat) := fun i =>
  if i = 1 then .ok { data := some [10, 11], pagination := some { page := 1, total_pages := 3 } }
  else .error (.NotFound "page 2 failed")

theorem c6_stream_termination_witness :
    ((ProjectsService.stream_all fetch_w 5).2.1 = 2
      ∧ (ProjectsService.stream_all fetch_w 5).2.2 = (3, true)
      ∧ Except.error (Error.HttpClient "unused") ∉ (ProjectsService.stream_all fetch_w 5).1)
    ∧ ProjectsService.stream_all fetch_err 4 =
        ([Except.ok 10, Except.ok 11, Except.error (Error.NotFound "page 2 failed")], 2, (2, true)) := by
  constructor
  · obtain ⟨h1, h2, h3⟩ := (c6_stream_termination fetch_w).1 2 (by decide) (by norm_num)
      (fun i hi1 hi2 => by
        have hi : i = 1 := by omega
        subst hi
        exact ⟨_, _, rfl, rfl, by decide⟩)
      ⟨_, _, rfl, rfl, rfl⟩ 5 (by decide)
    exact ⟨h1, by rw [h2]; decide, h3 _⟩
  · have h := (c6_stream_termination fetch_err).2 _ _ _ rfl rfl (by decide) rfl 4 (by decide)
    rw [h]
    rfl

/-- C7: a single successful listing call with `pagination.page =
pagination.total_pages` (or with pagination absent, treated as no more
pages) makes the stream yield exactly the data items, in order, as
individual successes (the empty sequence when data is absent), then end
after that one call with no error item. -/
theorem c7_stream_single_page {T : Type} (fetch : Nat → Except Error (PaginatedResponse T))
    (resp : PaginatedResponse T)
    (h1 : fetch 1 = .ok resp)
    (hpg : resp.pagination = none
      ∨ ∃ pg, resp.pagination = some pg ∧ pg.page = pg.total_pages) :
    ∀ fuel, 1 ≤ fuel →
      (ProjectsService.stream_all fetch fuel).1 = (resp.data.getD []).map Except.ok
      ∧ (ProjectsService.stream_all fetch fuel).2.1 = 1
      ∧ (ProjectsService.stream_all fetch fuel).2.2 = (2, true)
      ∧ (resp.data = none → (ProjectsService.stream_all fetch fuel).1 = []) := by
  intro fuel hf
  obtain ⟨f, rfl⟩ : ∃ f, fuel = f + 1 := ⟨fuel - 1, by omega⟩
  rcases hpg with h | ⟨pg, h, he⟩
  · refine ⟨?_, ?_, ?_, fun hd => ?_⟩ <;>
      simp [ProjectsService.stream_all, stream_run, stream_step, h1, h, stream_run_done, *]
  · refine ⟨?_, ?_, ?_, fun hd => ?_⟩ <;>
      simp [ProjectsService.stream_all, stream_run, stream_step, h1, h, he, stream_run_done, *]

/-- One page holding three items, page 1 of 1. -/
def fetch_one : Nat → Except Error (PaginatedResponse Nat) := fun i =>
  if i = 1 then .ok { data := some [7, 8, 9], pagination := some { page := 1, total_pages := 1 } }
  else .error (.HttpClient "unused")

theorem c7_stream_single_page_witness :
    (ProjectsService.stream_all fetch_one 3).1 = [Except.ok 7, Except.ok 8, Except.ok 9]
    ∧ (ProjectsService.stream_all fetch_one 3).2.1 = 1
    ∧ (ProjectsService.stream_all fetch_one 3).2.2 = (2, true) := by
  obtain ⟨h1, h2, h3, -⟩ := c7_stream_single_page fetch_one _ rfl
    (Or.inr ⟨_, rfl, rfl⟩) 3 (by decide)
  exact ⟨by rw [h1]; rfl, h2, h3⟩

/-- C8: building a client from a configuration whose API key is the empty
string fails with a Configuration error.  The build is a pure validation
step: the model is a total function involving no I/O, mirroring the source,
where neither the validation nor the `reqwest::Client` construction performs
a network call. -/
theorem c8_empty_api_key (cfg : ClientConfig) (h : cfg.api_key = "") :
    ClientBuilder.build cfg = .error (.Configuration "API key is required") := by
  simp [ClientBuilder.build, h]

theorem c8_empty_api_key_witness :
    ClientBuilder.build ClientConfig.default_config
      = .error (.Configuration "API key is required") :=
  c8_empty_api_key ClientConfig.default_config rfl

/-- C9: parsing the display string of an environment yields the environment
back; parsing is case-insensitive (it matches on the lowercased input) and
also accepts the abbreviations "prod" and "test"; every other string yields
an `InvalidEnvironment` error carrying the original string. -/
theorem c9_environment_roundtrip :
    (∀ e : Environment, Environment.from_str e.display = .ok e)
    ∧ (∀ s : String, rust_to_lowercase s = "production" ∨ rust_to_lowercase s = "prod" →
        Environment.from_str s = .ok .Production)
    ∧ (∀ s : String, rust_to_lowercase s = "testnet" ∨ rust_to_lowercase s = "test" →
        Environment.from_str s = .ok .Testnet)
    ∧ (∀ s : String, rust_to_lowercase s ≠ "production" → rust_to_lowercase s ≠ "prod" →
        rust_to_lowercase s ≠ "testnet" → rust_to_lowercase s ≠ "test" →
        Environment.from_str s = .error (.InvalidEnvironment s)) := by
  refine ⟨?_, ?_, ?_, ?_⟩
  · intro e
    cases e <;> rfl
  · intro s h
    simp only [Environment.from_str]
    rw [if_pos h]
  · intro s h
    rcases h with h | h <;> simp [Environment.from_str, h]
  · intro s h1 h2 h3 h4
    simp [Environment.from_str, h1, h2, h3, h4]

theorem c9_environment_roundtrip_witness :
    Environment.from_str "production" = .ok .Production
    ∧ Environment.from_str "PROD" = .ok .Production
    ∧ Environment.from_str "Test" = .ok .Testnet
    ∧ Environment.from_str "mainnet" = .error (.InvalidEnvironment "mainnet") := by
  obtain ⟨h1, h2, h3, h4⟩ := c9_environment_roundtrip
  exact ⟨h1 .Production, h2 "PROD" (Or.inr (by decide)), h3 "Test" (Or.inr (by decide)),
    h4 "mainnet" (by decide) (by decide) (by decide) (by decide)⟩

/-- C10: for every successful response to the featured and trending
operations, the operation returns exactly the envelope's data items - the
empty vector when the data field is absent, never an error for absence -
and the result does not depend on the pagination metadata; an error from
the GET is propagated unchanged. -/
theorem c10_featured_trending_data {T : Type} (resp : PaginatedResponse T) :
    (resp.data = none →
        ProjectsService.featured (.ok resp) = .ok ([] : List T)
        ∧ ProjectsService.trending (.ok resp) = .ok ([] : List T))
    ∧ ProjectsService.featured (.ok resp) = .ok (resp.data.getD [])
    ∧ ProjectsService.trending (.ok resp) = .ok (resp.data.getD [])
    ∧ (∀ pg, ProjectsService.featured (.ok { resp with pagination := pg })
        = ProjectsService.featured (.ok resp))
    ∧ (∀ pg, ProjectsService.trending (.ok { resp with pagination := pg })
        = ProjectsService.trending (.ok resp))
    ∧ (∀ e, ProjectsService.featured (T := T) (.error e) = .error e)
    ∧ (∀ e, ProjectsService.trending (T := T) (.error e) = .error e) := by
  refine ⟨fun hd => ⟨by simp [ProjectsService.featured, hd],
      by simp [ProjectsService.trending, hd]⟩,
    rfl, rfl, fun pg => rfl, fun pg => rfl, fun e => rfl, fun e => rfl⟩

theorem c10_featured_trending_data_witness :
    ProjectsService.featured
        (.ok ({ data := none, pagination := some { page := 1, total_pages := 5 } }
          : PaginatedResponse Nat)) = .ok []
    ∧ ProjectsService.trending
        (.ok ({ data := none, pagination := some { page := 1, total_pages := 5 } }
          : PaginatedResponse Nat)) = .ok [] := by
  exact (c10_featured_trending_data _).1 rfl

end XrplSale
